import Mathlib

/-!
Verification of the StreamFi profile-update handler and its Cloudinary
image-store adapter.

The development shallowly embeds the two source modules:

* the profile-update API route (form parsing results, identity resolution,
  social-links decoding, avatar upload orchestration, and the dynamic
  `UPDATE` statement builder `updateUser`); and
* the Cloudinary adapter (`extractPublicIdFromUrl`, `deleteImage`).

External collaborators (the JSON parser, the SQL pool, the remote image
store, the filesystem) are modelled as oracles / effect traces: the handler
is a pure function from the parsed request plus oracle outcomes to an HTTP
result together with a trace of the effects it performed (existence query,
upload attempt, deleted temp files, executed update statement).
-/

/-- A JSON value, the result of a successful `JSON.parse`. -/
inductive Json where
  | null : Json
  | bool : Bool → Json
  | num : Int → Json
  | str : String → Json
  | arr : List Json → Json
  | obj : List (String × Json) → Json

/-- String escaping used by `JSON.stringify` for one character. -/
def Json.quoteChar (c : Char) : String :=
  if c = '"' then "\\\"" else if c = '\\' then "\\\\" else String.singleton c

/-- String quoting used by `JSON.stringify`. -/
def Json.quote (s : String) : String :=
  "\"" ++ String.join (s.data.map Json.quoteChar) ++ "\""

mutual

/-- Model of the builtin `JSON.stringify` applied to a parsed JSON value. -/
def Json.stringify : Json → String
  | Json.null => "null"
  | Json.bool b => cond b "true" "false"
  | Json.num n => toString n
  | Json.str s => Json.quote s
  | Json.arr xs => "[" ++ Json.strList xs ++ "]"
  | Json.obj ms => "\x7b" ++ Json.strMembers ms ++ "\x7d"

/-- Comma-separated serialization of a JSON array's elements. -/
def Json.strList : List Json → String
  | [] => ""
  | [x] => Json.stringify x
  | x :: y :: xs => Json.stringify x ++ "," ++ Json.strList (y :: xs)

/-- Comma-separated serialization of a JSON object's members. -/
def Json.strMembers : List (String × Json) → String
  | [] => ""
  | [(k, v)] => Json.quote k ++ ":" ++ Json.stringify v
  | (k, v) :: m :: ms =>
      Json.quote k ++ ":" ++ Json.stringify v ++ "," ++ Json.strMembers (m :: ms)

end

/-- The sparse update mapping built by the handler (`UserData` in the source):
each field is present exactly when the caller supplied it. `socialLinks`
holds the already-parsed JSON array. -/
structure UserData where
  username : Option String := none
  email : Option String := none
  avatar : Option String := none
  bio : Option String := none
  streamKey : Option String := none
  socialLinks : Option (List Json) := none

/-- `Object.keys(userData).length === 0` in the source: no field supplied. -/
def UserData.isEmpty (u : UserData) : Bool :=
  u.username.isNone && u.email.isNone && u.avatar.isNone &&
    u.bio.isNone && u.streamKey.isNone && u.socialLinks.isNone

/-- A parameterized SQL statement: its text and its bound parameter list
(`pool.query(query, values)` in the source). -/
structure UpdateQuery where
  text : String
  params : List String
deriving DecidableEq

/-- The clause/parameter accumulation loop of `updateUser` (source lines
148-181): `setClauses`, `values` (wallet first) and `paramIndex` are threaded
through the six conditional pushes in source order. -/
def buildSet (wallet : String) (userData : UserData) :
    List String × List String × Nat :=
  let s0 : List String × List String × Nat := ([], [wallet], 2)
  let s1 := match userData.username with
    | some v => (s0.1 ++ ["username = $" ++ toString s0.2.2], s0.2.1 ++ [v], s0.2.2 + 1)
    | none => s0
  let s2 := match userData.email with
    | some v => (s1.1 ++ ["email = $" ++ toString s1.2.2], s1.2.1 ++ [v], s1.2.2 + 1)
    | none => s1
  let s3 := match userData.avatar with
    | some v => (s2.1 ++ ["avatar = $" ++ toString s2.2.2], s2.2.1 ++ [v], s2.2.2 + 1)
    | none => s2
  let s4 := match userData.bio with
    | some v => (s3.1 ++ ["bio = $" ++ toString s3.2.2], s3.2.1 ++ [v], s3.2.2 + 1)
    | none => s3
  let s5 := match userData.streamKey with
    | some v => (s4.1 ++ ["streamkey = $" ++ toString s4.2.2], s4.2.1 ++ [v], s4.2.2 + 1)
    | none => s4
  let s6 := match userData.socialLinks with
    | some xs =>
        (s5.1 ++ ["socialLinks = $" ++ toString s5.2.2],
         s5.2.1 ++ [Json.stringify (Json.arr xs)], s5.2.2 + 1)
    | none => s5
  s6

/-- The full SET clause list: the conditional clauses followed by the
unconditional `updated_at = CURRENT_TIMESTAMP` push (source line 184). -/
def setClausesOf (wallet : String) (userData : UserData) : List String :=
  (buildSet wallet userData).1 ++ ["updated_at = CURRENT_TIMESTAMP"]

/-- `updateUser` (source lines 146-196): assembles the statement text from the
template literal and the joined SET clauses, binding `values`. -/
def updateUser (wallet : String) (userData : UserData) : UpdateQuery :=
  { text := "\n    UPDATE users \n    SET " ++
      String.intercalate ", " (setClausesOf wallet userData) ++
      "\n    WHERE wallet = $1\n    RETURNING id, wallet, username, email, avatar, bio, streamkey as \"streamKey\", socialLinks, updated_at\n  "
    params := (buildSet wallet userData).2.1 }

/-- Specification-side view: the columns touched by an update mapping, in the
canonical source order. -/
def presentCols (u : UserData) : List String :=
  (if u.username.isSome then ["username"] else []) ++
  (if u.email.isSome then ["email"] else []) ++
  (if u.avatar.isSome then ["avatar"] else []) ++
  (if u.bio.isSome then ["bio"] else []) ++
  (if u.streamKey.isSome then ["streamkey"] else []) ++
  (if u.socialLinks.isSome then ["socialLinks"] else [])

/-- Specification-side view: assignment clauses numbered by consecutive
freshly allocated parameter slots starting at `i`. -/
def numberClauses : List String → Nat → List String
  | [], _ => []
  | c :: cs, i => (c ++ " = $" ++ toString i) :: numberClauses cs (i + 1)

/-- Specification-side view of the full SET clause list: one clause per
present column, slots 2,3,..., then the parameterless timestamp clause. -/
def specSetClauses (u : UserData) : List String :=
  numberClauses (presentCols u) 2 ++ ["updated_at = CURRENT_TIMESTAMP"]

/-- The value bound for an optionally-present scalar field. -/
def optVal : Option String → List String
  | some v => [v]
  | none => []

/-- Specification-side view of the bound parameters: the wallet first, then
the supplied values in canonical order, social links serialized. -/
def specParams (w : String) (u : UserData) : List String :=
  [w] ++ optVal u.username ++ optVal u.email ++ optVal u.avatar ++
    optVal u.bio ++ optVal u.streamKey ++
    (match u.socialLinks with
     | some xs => [Json.stringify (Json.arr xs)]
     | none => [])

/-- The parsed multipart request as the handler observes it: the HTTP method,
the optional `wallet` query parameter, the optional `Authorization` header
value, the formidable fields (name to value array), and the filepath of the
avatar file part if one was attached. -/
structure Request where
  method : String
  queryWallet : Option String
  authorization : Option String
  fields : List (String × List String)
  avatarFile : Option String

/-- Outcomes of the external collaborators for one request: the builtin
`JSON.parse` (`none` models a thrown parse error), the result of the
user-existence query, and the avatar upload (`some url` is a successful
upload returning `secure_url`; `none` models a thrown upload error). -/
structure Oracles where
  parseJson : String → Option Json
  userExists : Bool
  uploadResult : Option String

/-- The externally observable effects the handler performed: whether the
existence SELECT was issued, whether an upload was attempted, which transient
local files were deleted, and the update statement executed, if any. -/
structure Trace where
  existsQueried : Bool
  uploadAttempted : Bool
  deletedFiles : List String
  updateRun : Option UpdateQuery
deriving DecidableEq

/-- The trace of a request that performed no external effect. -/
def emptyTrace : Trace :=
  { existsQueried := false, uploadAttempted := false, deletedFiles := [], updateRun := none }

/-- The handler's response (status and body message) plus its effect trace. -/
structure HResult where
  status : Nat
  body : String
  trace : Trace
deriving DecidableEq

/-- `fields.name?.[0]`: the first value of a form field, if the field is
present and its value array is non-empty. -/
def fieldFirst (fields : List (String × List String)) (name : String) : Option String :=
  (fields.lookup name).bind List.head?

/-- JavaScript truthiness of an optional string: present and non-empty. -/
def truthy : Option String → Bool
  | some s => !(s == "")
  | none => false

/-- `a || b` on optional strings: `b` when `a` is absent or empty. -/
def jsOrS (a b : Option String) : Option String :=
  match a with
  | some s => if s = "" then b else some s
  | none => b

/-- Replace the first occurrence of `pat` in the character list (the builtin
`String.prototype.replace` with a string pattern replaces only the first). -/
def replaceFirstAux (pat rep : List Char) : List Char → List Char
  | [] => []
  | c :: cs =>
    if pat.isPrefixOf (c :: cs) then rep ++ (c :: cs).drop pat.length
    else c :: replaceFirstAux pat rep cs

/-- Model of `s.replace(pat, rep)` for string patterns. -/
def jsReplaceFirst (s pat rep : String) : String :=
  String.mk (replaceFirstAux pat.data rep.data s.data)

/-- `authorization.replace('Bearer ', '')` (source line 46). -/
def stripBearer (a : String) : String :=
  jsReplaceFirst a "Bearer " ""

/-- Identity resolution (source lines 45-47): query parameter, else header
with the bearer replacement applied, else the first `wallet` form field. -/
def resolveWallet (req : Request) : Option String :=
  jsOrS req.queryWallet
    (jsOrS (req.authorization.map stripBearer) (fieldFirst req.fields "wallet"))

/-- The scalar-field rule (source lines 63-66): `if (fields.x?.[0])` adds the
field only when present with a non-empty first value. -/
def scalarField (fields : List (String × List String)) (name : String) : Option String :=
  match fieldFirst fields name with
  | some s => if s = "" then none else some s
  | none => none

/-- The social-links step (source lines 69-78): a truthy field is parsed;
a parse error is a terminal 400 (`Except.error`), a parsed array is adopted,
and any other parsed value is silently ignored. -/
def socialLinksStep (o : Oracles) (raw : Option String) :
    Except Unit (Option (List Json)) :=
  match raw with
  | none => Except.ok none
  | some s =>
    if s = "" then Except.ok none
    else
      match o.parseJson s with
      | none => Except.error ()
      | some (Json.arr xs) => Except.ok (some xs)
      | some _ => Except.ok none

/-- The tail of the handler (source lines 100-112): the empty-mapping check
followed by the update execution. -/
def finishStep (w : String) (u : UserData) (t : Trace) : HResult :=
  if UserData.isEmpty u then
    { status := 400, body := "No update data provided", trace := t }
  else
    { status := 200, body := "User updated successfully",
      trace := { t with updateRun := some (updateUser w u) } }

/-- The request handler (source lines 31-118) as a pure function of the
parsed request and the collaborator oracles. -/
def handler (req : Request) (o : Oracles) : HResult :=
  if ¬ (req.method = "PUT" ∨ req.method = "PATCH") then
    { status := 405, body := "Method not allowed", trace := emptyTrace }
  else if ¬ truthy (resolveWallet req) then
    { status := 400, body := "Wallet address is required", trace := emptyTrace }
  else
    let w := (resolveWallet req).getD ""
    if ¬ o.userExists then
      { status := 404, body := "User not found",
        trace := { emptyTrace with existsQueried := true } }
    else
      let u1 : UserData :=
        { username := scalarField req.fields "username"
          email := scalarField req.fields "email"
          avatar := none
          bio := scalarField req.fields "bio"
          streamKey := scalarField req.fields "streamKey"
          socialLinks := none }
      match socialLinksStep o (fieldFirst req.fields "socialLinks") with
      | Except.error _ =>
        { status := 400, body := "Invalid social links format",
          trace := { emptyTrace with existsQueried := true } }
      | Except.ok sl =>
        let u2 := { u1 with socialLinks := sl }
        match req.avatarFile with
        | some fp =>
          match o.uploadResult with
          | none =>
            { status := 500, body := "Failed to upload avatar",
              trace := { existsQueried := true, uploadAttempted := true,
                         deletedFiles := [], updateRun := none } }
          | some url =>
            finishStep w { u2 with avatar := some url }
              { existsQueried := true, uploadAttempted := true,
                deletedFiles := [fp], updateRun := none }
        | none =>
          finishStep w u2
            { existsQueried := true, uploadAttempted := false,
              deletedFiles := [], updateRun := none }

/-- A parsed URL as `new URL(url)` yields it: scheme, host, and the pathname
beginning with a slash. -/
structure Url where
  scheme : String
  host : String
  pathname : String
deriving DecidableEq

/-- Split a character list at every slash (`pathname.split('/')`). -/
def splitSlashAux : List Char → List (List Char)
  | [] => [[]]
  | c :: cs =>
    if c = '/' then [] :: splitSlashAux cs
    else
      match splitSlashAux cs with
      | g :: gs => (c :: g) :: gs
      | [] => [[c]]

/-- Model of the builtin `String.prototype.split('/')`. -/
def jsSplitSlash (s : String) : List String :=
  (splitSlashAux s.data).map (fun l => String.mk l)

/-- Model of the builtin `Array.prototype.join('/')`. -/
def joinSlash : List String → String
  | [] => ""
  | [p] => p
  | p :: ps => p ++ "/" ++ joinSlash ps

/-- Model of the builtin `Array.prototype.findIndex`. -/
def jsFindIndex {α : Type} (p : α → Bool) : List α → Option Nat
  | [] => none
  | x :: xs => if p x then some 0 else (jsFindIndex p xs).map (fun i => i + 1)

/-- Model of `s.lastIndexOf('.')`: the index of the last dot, `-1` if none. -/
def jsLastIndexOfDot (s : String) : Int :=
  match jsFindIndex (fun c => c == '.') s.data.reverse with
  | none => -1
  | some i => ((s.data.length - 1 - i : Nat) : Int)

/-- Model of `s.substring(0, e)`: the end index is clamped into range, so a
negative `e` yields the empty string. -/
def jsSubstring0 (s : String) (e : Int) : String :=
  String.mk (s.data.take (max 0 (min e (s.data.length : Int))).toNat)

/-- `extractPublicIdFromUrl` (adapter lines 73-99): split the pathname, find
the first `upload` segment, require at least two segments after it, skip the
version segment, strip the extension from the final segment, and rejoin. -/
def extractPublicIdFromUrl (url : Url) : Option String :=
  let pathParts := jsSplitSlash url.pathname
  match jsFindIndex (fun part => part == "upload") pathParts with
  | none => none
  | some uploadIndex =>
    if pathParts.length ≤ uploadIndex + 2 then none
    else
      let publicIdParts := pathParts.drop (uploadIndex + 2)
      let lastPart := publicIdParts.getLastD ""
      let lastPartWithoutExtension := jsSubstring0 lastPart (jsLastIndexOfDot lastPart)
      some (joinSlash (publicIdParts.dropLast ++ [lastPartWithoutExtension]))

/-- The observable outcome of `deleteImage` (adapter lines 51-66): either the
derivation failed and no remote call is made (`invalidRef`, the thrown
`Invalid Cloudinary URL` error), or `cloudinary.uploader.destroy` is invoked
with the derived public id. -/
inductive DeleteOutcome where
  | invalidRef : DeleteOutcome
  | destroyed : String → DeleteOutcome
deriving DecidableEq

/-- `deleteImage` (adapter lines 51-66): derive the public id from the URL;
a `null` or falsy (empty) id aborts before the remote delete. -/
def deleteImage (url : Url) : DeleteOutcome :=
  match extractPublicIdFromUrl url with
  | none => DeleteOutcome.invalidRef
  | some publicId =>
    if publicId = "" then DeleteOutcome.invalidRef
    else DeleteOutcome.destroyed publicId

/-- The fixed leading text of the generated statement. -/
def sqlHead : String := "\n    UPDATE users \n    SET "

/-- The fixed trailing text of the generated statement: the WHERE clause
binding the wallet to parameter slot 1, and the RETURNING projection. -/
def sqlTail : String :=
  "\n    WHERE wallet = $1\n    RETURNING id, wallet, username, email, avatar, bio, streamkey as \"streamKey\", socialLinks, updated_at\n  "

lemma updateUser_text (w : String) (u : UserData) :
    (updateUser w u).text =
      sqlHead ++ String.intercalate ", " (setClausesOf w u) ++ sqlTail := rfl

lemma buildSet_spec (w : String) (u : UserData) :
    (buildSet w u).1 = numberClauses (presentCols u) 2 ∧
    (buildSet w u).2.1 = specParams w u := by
  obtain ⟨f1, f2, f3, f4, f5, f6⟩ := u
  cases f1 <;> cases f2 <;> cases f3 <;> cases f4 <;> cases f5 <;> cases f6 <;>
    exact ⟨rfl, rfl⟩

lemma setClausesOf_eq (w : String) (u : UserData) :
    setClausesOf w u = specSetClauses u := by
  unfold setClausesOf specSetClauses
  rw [(buildSet_spec w u).1]

lemma numberClauses_mem {cols : List String} {i : Nat} {c : String}
    (h : c ∈ numberClauses cols i) :
    ∃ col, col ∈ cols ∧ ∃ rest, c = col ++ rest := by
  induction cols generalizing i with
  | nil => simp [numberClauses] at h
  | cons a as ih =>
    rw [numberClauses] at h
    rcases List.mem_cons.mp h with h | h
    · exact ⟨a, List.mem_cons_self a as, " = $" ++ toString i,
        by rw [h, String.append_assoc]⟩
    · obtain ⟨col, hm, rest, he⟩ := ih h
      exact ⟨col, List.mem_cons_of_mem a hm, rest, he⟩

lemma mem_if_single {b : Prop} [Decidable b] {x col : String}
    (h : col ∈ if b then [x] else []) : col = x := by
  split at h
  · simpa using h
  · simp at h

lemma presentCols_sub {u : UserData} {col : String} (h : col ∈ presentCols u) :
    col ∈ ["username", "email", "avatar", "bio", "streamkey", "socialLinks"] := by
  unfold presentCols at h
  simp only [List.mem_append] at h
  rcases h with ((((h | h) | h) | h) | h) | h <;> (rw [mem_if_single h]; decide)

lemma presentCols_congr {u1 u2 : UserData}
    (h1 : u1.username.isSome = u2.username.isSome)
    (h2 : u1.email.isSome = u2.email.isSome)
    (h3 : u1.avatar.isSome = u2.avatar.isSome)
    (h4 : u1.bio.isSome = u2.bio.isSome)
    (h5 : u1.streamKey.isSome = u2.streamKey.isSome)
    (h6 : u1.socialLinks.isSome = u2.socialLinks.isSome) :
    presentCols u1 = presentCols u2 := by
  simp only [presentCols, h1, h2, h3, h4, h5, h6]

/-- C1: for every non-empty update mapping, the generated SET clause list is
exactly one assignment per supplied field in the canonical order username,
email, avatar, bio, streamKey (column `streamkey`), socialLinks, each bound
to the next freshly allocated parameter slot (2, 3, ...), followed by the
single parameterless `updated_at = CURRENT_TIMESTAMP` clause; the bound
parameters are the wallet, then the supplied values in the same order, with
socialLinks JSON-serialized before binding. No unsupplied field contributes
a clause. -/
theorem updateUser_canonical_clauses (w : String) (u : UserData)
    (_h : UserData.isEmpty u = false) :
    setClausesOf w u = specSetClauses u ∧
      (updateUser w u).params = specParams w u :=
  ⟨setClausesOf_eq w u, (buildSet_spec w u).2⟩

theorem updateUser_canonical_clauses_witness :
    setClausesOf "0xW" { username := some "nova", bio := some "hi" } =
      specSetClauses { username := some "nova", bio := some "hi" } ∧
    (updateUser "0xW" { username := some "nova", bio := some "hi" }).params =
      specParams "0xW" { username := some "nova", bio := some "hi" } :=
  updateUser_canonical_clauses "0xW" _ (by decide)

/-- C7: the statement text is a function only of which fields are present,
never of the field values or the wallet: two mappings supplying the same set
of fields yield character-for-character identical text, all values flowing
through the bound-parameter array. -/
theorem updateUser_text_value_independent (w1 w2 : String) (u1 u2 : UserData)
    (h1 : u1.username.isSome = u2.username.isSome)
    (h2 : u1.email.isSome = u2.email.isSome)
    (h3 : u1.avatar.isSome = u2.avatar.isSome)
    (h4 : u1.bio.isSome = u2.bio.isSome)
    (h5 : u1.streamKey.isSome = u2.streamKey.isSome)
    (h6 : u1.socialLinks.isSome = u2.socialLinks.isSome) :
    (updateUser w1 u1).text = (updateUser w2 u2).text := by
  rw [updateUser_text, updateUser_text, setClausesOf_eq, setClausesOf_eq]
  unfold specSetClauses
  rw [presentCols_congr h1 h2 h3 h4 h5 h6]

theorem updateUser_text_value_independent_witness :
    (updateUser "walletA" { username := some "alice", bio := some "x" }).text =
      (updateUser "walletB" { username := some "bob", bio := some "yyy" }).text :=
  updateUser_text_value_independent "walletA" "walletB" _ _ rfl rfl rfl rfl rfl rfl

/-- C8: the wallet is never assigned in the SET clause: the wallet string is
bound only as the first parameter (slot `$1`), every SET clause assigns one
of the seven known columns (the six updatable columns plus `updated_at`), a
set that does not contain `wallet`, and the statement text always ends with
the fixed `WHERE wallet = $1 ... RETURNING ...` tail. -/
theorem updateUser_wallet_immutable (w : String) (u : UserData) :
    (updateUser w u).params.head? = some w ∧
    (∀ c ∈ setClausesOf w u, ∃ col,
      col ∈ ["username", "email", "avatar", "bio", "streamkey", "socialLinks",
             "updated_at"] ∧ ∃ rest, c = col ++ rest) ∧
    "wallet" ∉ ["username", "email", "avatar", "bio", "streamkey", "socialLinks",
                "updated_at"] ∧
    (∃ mid, (updateUser w u).text = sqlHead ++ mid ++ sqlTail) := by
  refine ⟨?_, ?_, by decide, String.intercalate ", " (setClausesOf w u), rfl⟩
  · rw [show (updateUser w u).params = specParams w u from (buildSet_spec w u).2]
    rfl
  · intro c hc
    rw [setClausesOf_eq] at hc
    unfold specSetClauses at hc
    rcases List.mem_append.mp hc with hc | hc
    · obtain ⟨col, hmem, rest, hec⟩ := numberClauses_mem hc
      have h6 := presentCols_sub hmem
      exact ⟨col, by simp at h6 ⊢; tauto, rest, hec⟩
    · have he : c = "updated_at = CURRENT_TIMESTAMP" := by simpa using hc
      exact ⟨"updated_at", by decide, " = CURRENT_TIMESTAMP", by rw [he]; decide⟩

theorem updateUser_wallet_immutable_witness :
    (updateUser "0xWal" { email := some "a@b.c" }).params.head? = some "0xWal" ∧
    (∀ c ∈ setClausesOf "0xWal" { email := some "a@b.c" }, ∃ col,
      col ∈ ["username", "email", "avatar", "bio", "streamkey", "socialLinks",
             "updated_at"] ∧ ∃ rest, c = col ++ rest) ∧
    "wallet" ∉ ["username", "email", "avatar", "bio", "streamkey", "socialLinks",
                "updated_at"] ∧
    (∃ mid, (updateUser "0xWal" { email := some "a@b.c" }).text =
      sqlHead ++ mid ++ sqlTail) :=
  updateUser_wallet_immutable "0xWal" { email := some "a@b.c" }

/-- The 400 response for an empty update mapping, with the existence query
already issued and no upload, deletion, or update in the trace. -/
def resNoFields : HResult :=
  { status := 400, body := "No update data provided",
    trace := { existsQueried := true, uploadAttempted := false,
               deletedFiles := [], updateRun := none } }

/-- The 400 response for an unresolvable identity: no effect performed. -/
def resMissingWallet : HResult :=
  { status := 400, body := "Wallet address is required", trace := emptyTrace }

/-- The 400 response for malformed social links: the existence query was
issued, but no upload was attempted and no update executed. -/
def resInvalidSocial : HResult :=
  { status := 400, body := "Invalid social links format",
    trace := { existsQueried := true, uploadAttempted := false,
               deletedFiles := [], updateRun := none } }

/-- The 500 response for a failed avatar upload: the upload was attempted but
no file was deleted and no update executed. -/
def resUploadFailed : HResult :=
  { status := 500, body := "Failed to upload avatar",
    trace := { existsQueried := true, uploadAttempted := true,
               deletedFiles := [], updateRun := none } }

lemma scalarField_of_empty {fields : List (String × List String)} {name : String}
    (h : fieldFirst fields name = some "") : scalarField fields name = none := by
  unfold scalarField
  rw [h]
  simp

lemma handler_no_fields (req : Request) (o : Oracles)
    (hm : req.method = "PUT" ∨ req.method = "PATCH")
    (hw : truthy (resolveWallet req) = true)
    (hex : o.userExists = true)
    (h1 : scalarField req.fields "username" = none)
    (h2 : scalarField req.fields "email" = none)
    (h3 : scalarField req.fields "bio" = none)
    (h4 : scalarField req.fields "streamKey" = none)
    (h5 : socialLinksStep o (fieldFirst req.fields "socialLinks") = Except.ok none)
    (h6 : req.avatarFile = none) :
    handler req o = resNoFields := by
  unfold handler resNoFields
  rw [if_neg (not_not_intro hm), if_neg (by simp [hw]), if_neg (by simp [hex])]
  rw [h1, h2, h3, h4, h5, h6]
  rfl

/-- C2 (amended): the resolved identity is the query parameter `wallet` when
non-empty; otherwise the Authorization header value with the first occurrence
of the substring `Bearer ` removed (the source uses `replace`, which removes
the first occurrence wherever it sits, not only a leading prefix), when that
result is non-empty; otherwise the first `wallet` form field. When all three
sources yield nothing the handler answers 400 with no further effect. -/
theorem resolveWallet_priority :
    (∀ (req : Request) (q : String), req.queryWallet = some q → q ≠ "" →
      resolveWallet req = some q) ∧
    (∀ (req : Request) (a : String), truthy req.queryWallet = false →
      req.authorization = some a → stripBearer a ≠ "" →
      resolveWallet req = some (stripBearer a)) ∧
    (∀ req : Request, truthy req.queryWallet = false →
      truthy (req.authorization.map stripBearer) = false →
      resolveWallet req = fieldFirst req.fields "wallet") ∧
    (∀ (req : Request) (o : Oracles),
      (req.method = "PUT" ∨ req.method = "PATCH") →
      truthy (resolveWallet req) = false →
      handler req o = resMissingWallet) := by
  refine ⟨?_, ?_, ?_, ?_⟩
  · intro req q hq hne
    simp [resolveWallet, jsOrS, hq, hne]
  · intro req a hq ha hs
    unfold resolveWallet
    cases hqw : req.queryWallet with
    | none => rw [ha]; simp [jsOrS, hs]
    | some s =>
      rw [hqw] at hq
      have hs0 : s = "" := by simpa [truthy] using hq
      rw [ha]
      simp [jsOrS, hs0, hs]
  · intro req hq ha
    have inner : jsOrS (req.authorization.map stripBearer)
        (fieldFirst req.fields "wallet") = fieldFirst req.fields "wallet" := by
      cases haw : req.authorization with
      | none => rfl
      | some a =>
        rw [haw] at ha
        have h0 : stripBearer a = "" := by simpa [truthy] using ha
        simp [jsOrS, h0]
    unfold resolveWallet
    rw [inner]
    cases hqw : req.queryWallet with
    | none => rfl
    | some s =>
      rw [hqw] at hq
      have h0 : s = "" := by simpa [truthy] using hq
      simp [jsOrS, h0]
  · intro req o hm hw
    unfold handler resMissingWallet
    rw [if_neg (not_not_intro hm), if_pos (by simp [hw])]

/-- C2 counterexample: with no query parameter and header `xBearer y`, the
code resolves the identity to `xy` — the `Bearer ` substring is removed from
the middle — whereas the claim's leading-prefix stripping would leave
`xBearer y` unchanged. -/
theorem resolveWallet_counterexample :
    resolveWallet ⟨"PUT", none, some "xBearer y", [], none⟩ = some "xy" ∧
    ("xy" : String) ≠ "xBearer y" := by decide

theorem resolveWallet_priority_witness :
    resolveWallet ⟨"PUT", some "0xQ", some "Bearer H", [("wallet", ["0xF"])], none⟩ =
      some "0xQ" ∧
    resolveWallet ⟨"PUT", none, some "Bearer H", [("wallet", ["0xF"])], none⟩ =
      some (stripBearer "Bearer H") ∧
    handler ⟨"PUT", none, none, [], none⟩ ⟨fun _ => none, true, none⟩ =
      resMissingWallet :=
  ⟨resolveWallet_priority.1 _ "0xQ" rfl (by decide),
   resolveWallet_priority.2.1 _ "Bearer H" (by decide) rfl (by decide),
   resolveWallet_priority.2.2.2 _ _ (Or.inl rfl) (by decide)⟩

/-- C4 (amended): when the `socialLinks` field is present and non-empty, a
JSON decode failure is a terminal 400 `Invalid social links format` with no
upload attempted and no update executed; but a successfully decoded value
that is not an array is silently ignored (the field is simply not adopted),
not an error. -/
theorem socialLinks_error_handling :
    (∀ (req : Request) (o : Oracles) (s : String),
      (req.method = "PUT" ∨ req.method = "PATCH") →
      truthy (resolveWallet req) = true →
      o.userExists = true →
      fieldFirst req.fields "socialLinks" = some s → s ≠ "" →
      o.parseJson s = none →
      handler req o = resInvalidSocial) ∧
    (∀ (o : Oracles) (s : String) (j : Json), s ≠ "" →
      o.parseJson s = some j → (∀ xs, j ≠ Json.arr xs) →
      socialLinksStep o (some s) = Except.ok none) := by
  constructor
  · intro req o s hm hw hex hf hs hp
    have hstep : socialLinksStep o (fieldFirst req.fields "socialLinks") =
        Except.error () := by
      rw [hf]
      simp [socialLinksStep, hs, hp]
    unfold handler resInvalidSocial
    rw [if_neg (not_not_intro hm), if_neg (by simp [hw]), if_neg (by simp [hex]),
      hstep]
    rfl
  · intro o s j hs hp hj
    simp only [socialLinksStep, if_neg hs, hp]

/-- C4 counterexample: `socialLinks` set to the text `42` decodes successfully
to a non-array; the claim demands a 400 `InvalidSocialLinks`, but the handler
silently drops the field and instead fails with `No update data provided`. -/
theorem socialLinks_nonarray_counterexample :
    (handler ⟨"PUT", some "0xabc", none, [("socialLinks", ["42"])], none⟩
      ⟨fun _ => some (Json.num 42), true, none⟩).body = "No update data provided" ∧
    (handler ⟨"PUT", some "0xabc", none, [("socialLinks", ["42"])], none⟩
      ⟨fun _ => some (Json.num 42), true, none⟩).body ≠
      "Invalid social links format" := by decide

theorem socialLinks_error_handling_witness :
    handler ⟨"PUT", some "0xabc", none, [("socialLinks", ["notjson"])], none⟩
      ⟨fun _ => none, true, none⟩ = resInvalidSocial ∧
    socialLinksStep ⟨fun _ => some (Json.num 7), true, none⟩ (some "7") =
      Except.ok none :=
  ⟨socialLinks_error_handling.1 _ _ "notjson" (Or.inl rfl) (by decide) rfl rfl
      (by decide) rfl,
   socialLinks_error_handling.2 _ "7" (Json.num 7) (by decide) rfl
      (fun xs hxs => Json.noConfusion hxs)⟩

/-- C5 (code bug): the transient avatar file is NOT deleted on the failure
path. When the upload oracle fails, the handler answers 500 with an empty
`deletedFiles` trace — `fs.unlinkSync` sits inside the `try` block after the
upload, so the `catch` path returns without cleanup; on the success path the
same file is deleted. -/
theorem uploadFailure_leaks_tempFile :
    handler ⟨"PUT", some "0xabc", none, [], some "/tmp/avatar.png"⟩
      ⟨fun _ => none, true, none⟩ = resUploadFailed ∧
    (handler ⟨"PUT", some "0xabc", none, [], some "/tmp/avatar.png"⟩
      ⟨fun _ => none, true, some "https://res.example/av.png"⟩).trace.deletedFiles =
      ["/tmp/avatar.png"] := by
  exact ⟨by decide, by decide⟩

/-- C6 (amended): a request that supplies no recognized field and no avatar
fails with 400 `No update data provided` before any update statement is built
or executed (`updateRun = none`); the user-existence SELECT, however, has
already been issued by that point. -/
theorem noFields_before_update (req : Request) (o : Oracles)
    (hm : req.method = "PUT" ∨ req.method = "PATCH")
    (hw : truthy (resolveWallet req) = true)
    (hex : o.userExists = true)
    (h1 : scalarField req.fields "username" = none)
    (h2 : scalarField req.fields "email" = none)
    (h3 : scalarField req.fields "bio" = none)
    (h4 : scalarField req.fields "streamKey" = none)
    (h5 : socialLinksStep o (fieldFirst req.fields "socialLinks") = Except.ok none)
    (h6 : req.avatarFile = none) :
    handler req o = resNoFields :=
  handler_no_fields req o hm hw hex h1 h2 h3 h4 h5 h6

/-- C6 counterexample: for an empty-mapping request the handler does issue a
query against the persistence backend — the user-existence SELECT — before
failing with `No update data provided`, contradicting the claim that no query
is issued for such a request. -/
theorem noFields_persistence_counterexample :
    (handler ⟨"PUT", some "0xabc", none, [], none⟩
      ⟨fun _ => none, true, none⟩).body = "No update data provided" ∧
    (handler ⟨"PUT", some "0xabc", none, [], none⟩
      ⟨fun _ => none, true, none⟩).trace.existsQueried = true := by decide

theorem noFields_before_update_witness :
    handler ⟨"PATCH", some "0xdef", none, [("unrecognized", ["zzz"])], none⟩
      ⟨fun _ => none, true, none⟩ = resNoFields :=
  noFields_before_update _ _ (Or.inr rfl) (by decide) rfl (by decide) (by decide)
    (by decide) (by decide) rfl rfl

/-- C9: a scalar field present with the empty string as its value is treated
exactly as if absent — it is not added to the update mapping — and a request
supplying only empty-string scalar fields and no avatar fails with 400
`No update data provided`. -/
theorem emptyString_scalars_ignored :
    (∀ (fields : List (String × List String)) (name : String),
      fieldFirst fields name = some "" → scalarField fields name = none) ∧
    (∀ (req : Request) (o : Oracles),
      (req.method = "PUT" ∨ req.method = "PATCH") →
      truthy (resolveWallet req) = true →
      o.userExists = true →
      fieldFirst req.fields "username" = some "" →
      fieldFirst req.fields "email" = some "" →
      fieldFirst req.fields "bio" = some "" →
      fieldFirst req.fields "streamKey" = some "" →
      fieldFirst req.fields "socialLinks" = none →
      req.avatarFile = none →
      handler req o = resNoFields) := by
  constructor
  · intro fields name h
    exact scalarField_of_empty h
  · intro req o hm hw hex h1 h2 h3 h4 h5 h6
    exact handler_no_fields req o hm hw hex (scalarField_of_empty h1)
      (scalarField_of_empty h2) (scalarField_of_empty h3) (scalarField_of_empty h4)
      (by rw [h5]; rfl) h6

theorem emptyString_scalars_ignored_witness :
    scalarField [("username", [""])] "username" = none ∧
    handler ⟨"PUT", some "0x1", none,
        [("username", [""]), ("email", [""]), ("bio", [""]), ("streamKey", [""])],
        none⟩ ⟨fun _ => none, true, none⟩ = resNoFields :=
  ⟨emptyString_scalars_ignored.1 _ _ (by decide),
   emptyString_scalars_ignored.2 _ _ (Or.inl rfl) (by decide) rfl (by decide)
     (by decide) (by decide) (by decide) (by decide) rfl⟩

lemma string_data_append (a b : String) : (a ++ b).data = a.data ++ b.data := rfl

lemma string_mk_data (s : String) : String.mk s.data = s := rfl

lemma string_append_empty (s : String) : s ++ "" = s := by
  cases s with
  | mk l =>
    show String.mk (l ++ []) = String.mk l
    rw [List.append_nil]

lemma splitSlashAux_no_slash {l : List Char} (h : '/' ∉ l) : splitSlashAux l = [l] := by
  induction l with
  | nil => rfl
  | cons c cs ih =>
    have hc : ¬ c = '/' := fun e => h (by simp [e])
    have hcs : '/' ∉ cs := fun m => h (List.mem_cons_of_mem _ m)
    simp [splitSlashAux, hc, ih hcs]

lemma splitSlashAux_append {a : List Char} (h : '/' ∉ a) (b : List Char) :
    splitSlashAux (a ++ '/' :: b) = a :: splitSlashAux b := by
  induction a with
  | nil => simp [splitSlashAux]
  | cons c cs ih =>
    have hc : ¬ c = '/' := fun e => h (by simp [e])
    have hcs : '/' ∉ cs := fun m => h (List.mem_cons_of_mem _ m)
    simp [splitSlashAux, hc, ih hcs]

lemma jsSplitSlash_joinSlash (parts : List String) (hne : parts ≠ [])
    (h : ∀ p ∈ parts, '/' ∉ p.data) :
    jsSplitSlash (joinSlash parts) = parts := by
  induction parts with
  | nil => cases hne rfl
  | cons p ps ih =>
    cases ps with
    | nil =>
      have hp := h p (List.mem_cons_self _ _)
      simp [jsSplitSlash, joinSlash, splitSlashAux_no_slash hp, string_mk_data]
    | cons q qs =>
      have hp := h p (List.mem_cons_self _ _)
      have hrest : ∀ r ∈ q :: qs, '/' ∉ r.data :=
        fun r hr => h r (List.mem_cons_of_mem _ hr)
      have ihr := ih (by simp) hrest
      have hdata : (joinSlash (p :: q :: qs)).data =
          p.data ++ '/' :: (joinSlash (q :: qs)).data := by
        show (p ++ "/" ++ joinSlash (q :: qs)).data = _
        rw [string_data_append, string_data_append, List.append_assoc]
        rfl
      unfold jsSplitSlash
      rw [hdata, splitSlashAux_append hp]
      rw [List.map_cons, string_mk_data]
      unfold jsSplitSlash at ihr
      rw [ihr]

lemma jsFindIndex_append_of_none {α : Type} {p : α → Bool} {a : List α}
    (h : ∀ x ∈ a, p x = false) (b : List α) :
    jsFindIndex p (a ++ b) = (jsFindIndex p b).map (fun i => a.length + i) := by
  induction a with
  | nil => cases hb : jsFindIndex p b <;> simp [hb]
  | cons x xs ih =>
    have hx : p x = false := h x (List.mem_cons_self x xs)
    have hxs : ∀ y ∈ xs, p y = false := fun y hy => h y (List.mem_cons_of_mem x hy)
    cases hb : jsFindIndex p b with
    | none => simp [jsFindIndex, hx, ih hxs, hb]
    | some v =>
      simp [jsFindIndex, hx, ih hxs, hb]
      omega

lemma jsFindIndex_eq_none {α : Type} {p : α → Bool} {l : List α}
    (h : ∀ x ∈ l, p x = false) : jsFindIndex p l = none := by
  induction l with
  | nil => rfl
  | cons x xs ih =>
    simp [jsFindIndex, h x (List.mem_cons_self x xs),
      ih (fun y hy => h y (List.mem_cons_of_mem x hy))]

lemma jsFindIndex_upload (a rest : List String) (h : "upload" ∉ a) :
    jsFindIndex (fun part => part == "upload") (a ++ "upload" :: rest) =
      some a.length := by
  have ha : ∀ x ∈ a, (x == "upload") = false := by
    intro x hx
    simp only [beq_eq_false_iff_ne]
    intro e
    exact h (e ▸ hx)
  rw [jsFindIndex_append_of_none ha]
  simp [jsFindIndex]

lemma jsLastIndexOfDot_noDot {s : String} (h : '.' ∉ s.data) :
    jsLastIndexOfDot s = -1 := by
  unfold jsLastIndexOfDot
  rw [jsFindIndex_eq_none]
  intro x hx
  simp only [beq_eq_false_iff_ne]
  intro e
  exact h (e ▸ (List.mem_reverse.mp hx))

lemma jsSubstring0_neg (s : String) : jsSubstring0 s (-1) = "" := by
  unfold jsSubstring0
  have h1 : (max 0 (min (-1) ((s.data.length : Nat) : Int))).toNat = 0 := by omega
  rw [h1]
  rfl

lemma data_append_dot (a b : String) :
    (a ++ "." ++ b).data = a.data ++ '.' :: b.data := by
  have h1 : (a ++ "." ++ b).data = (a.data ++ ['.']) ++ b.data := by
    rw [string_data_append, string_data_append]
  rw [h1, List.append_assoc]
  rfl

lemma strip_ext (a b : String) (hx : '.' ∉ b.data) :
    jsSubstring0 (a ++ "." ++ b) (jsLastIndexOfDot (a ++ "." ++ b)) = a := by
  have hnone : ∀ x ∈ b.data.reverse, (x == '.') = false := by
    intro x hmem
    simp only [beq_eq_false_iff_ne]
    intro e
    exact hx (e ▸ (List.mem_reverse.mp hmem))
  have hidx : jsLastIndexOfDot (a ++ "." ++ b) = (a.data.length : Int) := by
    unfold jsLastIndexOfDot
    rw [data_append_dot]
    have hrev : (a.data ++ '.' :: b.data).reverse =
        b.data.reverse ++ '.' :: a.data.reverse := by
      rw [List.reverse_append, List.reverse_cons, List.append_assoc]
      rfl
    rw [hrev, jsFindIndex_append_of_none hnone]
    simp [jsFindIndex]
  rw [hidx]
  unfold jsSubstring0
  rw [data_append_dot]
  have h2 : (max 0 (min ((a.data.length : Nat) : Int)
      (((a.data ++ '.' :: b.data).length : Nat) : Int))).toNat = a.data.length := by
    simp only [List.length_append, List.length_cons]
    omega
  rw [h2, List.take_left]

lemma extract_shape (scheme host version : String) (pre mids : List String)
    (lastSeg : String)
    (hpu : "upload" ∉ pre)
    (hp : ∀ p ∈ pre, '/' ∉ p.data) (hv : '/' ∉ version.data)
    (hm : ∀ p ∈ mids, '/' ∉ p.data) (hl : '/' ∉ lastSeg.data) :
    extractPublicIdFromUrl ⟨scheme, host,
        joinSlash ("" :: pre ++ ["upload", version] ++ mids ++ [lastSeg])⟩ =
      some (joinSlash (mids ++ [jsSubstring0 lastSeg (jsLastIndexOfDot lastSeg)])) := by
  have hall : ∀ p ∈ ("" :: pre ++ ["upload", version] ++ mids ++ [lastSeg]),
      '/' ∉ p.data := by
    intro p hmem
    rcases List.mem_cons.mp hmem with rfl | hmem
    · simp
    rcases List.mem_append.mp hmem with hmem | hmem
    · rcases List.mem_append.mp hmem with hmem | hmem
      · rcases List.mem_append.mp hmem with hmem | hmem
        · exact hp p hmem
        · rcases List.mem_cons.mp hmem with rfl | hmem
          · decide
          · rw [List.mem_singleton] at hmem
            rw [hmem]
            exact hv
      · exact hm p hmem
    · rw [List.mem_singleton] at hmem
      rw [hmem]
      exact hl
  have hsplit : jsSplitSlash
      (joinSlash ("" :: pre ++ ["upload", version] ++ mids ++ [lastSeg])) =
      "" :: pre ++ ["upload", version] ++ mids ++ [lastSeg] :=
    jsSplitSlash_joinSlash _ (by simp) hall
  have hshape : ("" :: pre ++ ["upload", version] ++ mids ++ [lastSeg]) =
      ("" :: pre) ++ "upload" :: (version :: (mids ++ [lastSeg])) := by
    simp [List.append_assoc]
  have hfind : jsFindIndex (fun part => part == "upload")
      ("" :: pre ++ ["upload", version] ++ mids ++ [lastSeg]) =
      some (pre.length + 1) := by
    rw [hshape, jsFindIndex_upload ("" :: pre) _ (by simp [hpu])]
    simp
  have hlen : ("" :: pre ++ ["upload", version] ++ mids ++ [lastSeg]).length =
      pre.length + mids.length + 4 := by
    simp only [List.length_append, List.length_cons, List.length_nil]
    omega
  have hdrop : ("" :: pre ++ ["upload", version] ++ mids ++ [lastSeg]).drop
      (pre.length + 1 + 2) = mids ++ [lastSeg] := by
    have hshape2 : ("" :: pre ++ ["upload", version] ++ mids ++ [lastSeg]) =
        ("" :: pre ++ ["upload", version]) ++ (mids ++ [lastSeg]) := by
      simp [List.append_assoc]
    rw [hshape2,
      show pre.length + 1 + 2 = ("" :: pre ++ ["upload", version]).length from by
        simp only [List.length_append, List.length_cons, List.length_nil],
      List.drop_left]
  simp only [extractPublicIdFromUrl]
  simp only [hsplit, hfind]
  rw [if_neg (by rw [hlen]; omega)]
  rw [hdrop, List.getLastD_concat, List.dropLast_concat]

lemma joinSlash_concat_empty {mids : List String} (h : mids ≠ []) :
    joinSlash (mids ++ [""]) = joinSlash mids ++ "/" := by
  induction mids with
  | nil => cases h rfl
  | cons p ps ih =>
    cases ps with
    | nil =>
      show p ++ "/" ++ joinSlash [""] = p ++ "/"
      exact string_append_empty _
    | cons q qs =>
      show p ++ "/" ++ joinSlash ((q :: qs) ++ [""]) =
        (p ++ "/" ++ joinSlash (q :: qs)) ++ "/"
      rw [ih (by simp)]
      simp [String.append_assoc]

lemma append_slash_ne_empty (t : String) : t ++ "/" ≠ "" := by
  intro h
  have h2 := congrArg String.data h
  rw [string_data_append] at h2
  simp at h2

lemma deleteImage_invalid_of_none {url : Url}
    (h : extractPublicIdFromUrl url = none) :
    deleteImage url = DeleteOutcome.invalidRef := by
  unfold deleteImage
  rw [h]

lemma deleteImage_invalid_of_empty {url : Url}
    (h : extractPublicIdFromUrl url = some "") :
    deleteImage url = DeleteOutcome.invalidRef := by
  unfold deleteImage
  rw [h]
  rfl

lemma deleteImage_destroyed {url : Url} {pid : String}
    (h : extractPublicIdFromUrl url = some pid) (hne : pid ≠ "") :
    deleteImage url = DeleteOutcome.destroyed pid := by
  unfold deleteImage
  rw [h]
  exact if_neg hne

lemma extract_none_of_short {url : Url}
    (h : match jsFindIndex (fun part => part == "upload")
          (jsSplitSlash url.pathname) with
         | none => True
         | some i => (jsSplitSlash url.pathname).length ≤ i + 2) :
    extractPublicIdFromUrl url = none := by
  simp only [extractPublicIdFromUrl]
  cases hfi : jsFindIndex (fun part => part == "upload") (jsSplitSlash url.pathname)
    with
  | none => rfl
  | some i =>
    rw [hfi] at h
    have h2 : (jsSplitSlash url.pathname).length ≤ i + 2 := h
    exact if_pos h2

/-- C3: the identifier derivation round-trips on upload-shaped URLs — for any
URL `scheme://host/<pre...>/upload/<version>/<idParts...>/<name>.<ext>` the
adapter extracts exactly `<idParts...>/<name>` — and any URL whose path has
no `upload` segment, or fewer than two segments after the first one, makes
`deleteImage` fail with the invalid-reference outcome without invoking the
remote delete. -/
theorem extract_roundtrip_and_invalidRef :
    (∀ (scheme host version nm ext : String) (pre idParts : List String),
      "upload" ∉ pre →
      (∀ p ∈ pre, '/' ∉ p.data) → '/' ∉ version.data →
      (∀ p ∈ idParts, '/' ∉ p.data) → '/' ∉ nm.data → '/' ∉ ext.data →
      '.' ∉ ext.data →
      extractPublicIdFromUrl ⟨scheme, host,
          joinSlash ("" :: pre ++ ["upload", version] ++ idParts ++
            [nm ++ "." ++ ext])⟩ =
        some (joinSlash (idParts ++ [nm]))) ∧
    (∀ url : Url,
      (match jsFindIndex (fun part => part == "upload") (jsSplitSlash url.pathname)
        with
       | none => True
       | some i => (jsSplitSlash url.pathname).length ≤ i + 2) →
      deleteImage url = DeleteOutcome.invalidRef) := by
  constructor
  · intro scheme host version nm ext pre idParts hpu hp hv hi hn hx hdx
    have hlast : '/' ∉ (nm ++ "." ++ ext).data := by
      intro hmem
      rw [data_append_dot] at hmem
      rcases List.mem_append.mp hmem with hmem | hmem
      · exact hn hmem
      · rcases List.mem_cons.mp hmem with he | hmem
        · exact absurd he (by decide)
        · exact hx hmem
    have hsh := extract_shape scheme host version pre idParts (nm ++ "." ++ ext)
      hpu hp hv hi hlast
    rw [strip_ext nm ext hdx] at hsh
    exact hsh
  · intro url h
    exact deleteImage_invalid_of_none (extract_none_of_short h)

/-- C3 witness: a concrete Cloudinary-shaped URL round-trips to
`user_avatars/abc123`, and a URL without an `upload` segment is rejected
without a remote delete. -/
theorem extract_roundtrip_and_invalidRef_witness :
    extractPublicIdFromUrl ⟨"https", "res.cloudinary.com",
        joinSlash ("" :: ["democloud", "image"] ++ ["upload", "v1234567890"] ++
          ["user_avatars"] ++ ["abc123" ++ "." ++ "jpg"])⟩ =
      some (joinSlash (["user_avatars"] ++ ["abc123"])) ∧
    deleteImage ⟨"https", "res.cloudinary.com", "/democloud/image/v1/a.jpg"⟩ =
      DeleteOutcome.invalidRef :=
  ⟨extract_roundtrip_and_invalidRef.1 "https" "res.cloudinary.com" "v1234567890"
      "abc123" "jpg" ["democloud", "image"] ["user_avatars"] (by decide) (by decide)
      (by decide) (by decide) (by decide) (by decide) (by decide),
   extract_roundtrip_and_invalidRef.2 _ (by trivial)⟩

/-- C10 (amended): on a path whose first `upload` segment is followed by a
version segment and then one or more segments, the last of which has no dot,
extraction succeeds and truncates the final segment to the empty string. With
two or more identifier segments the derived identifier ends in a slash and
the remote delete is invoked with it; with exactly one identifier segment the
derived identifier is the empty string and `deleteImage` fails with the
invalid-reference outcome instead of proceeding. -/
theorem extensionless_truncation (scheme host version lastSeg : String)
    (pre mids : List String)
    (hpu : "upload" ∉ pre)
    (hp : ∀ p ∈ pre, '/' ∉ p.data) (hv : '/' ∉ version.data)
    (hm : ∀ p ∈ mids, '/' ∉ p.data) (hl : '/' ∉ lastSeg.data)
    (hd : '.' ∉ lastSeg.data) :
    extractPublicIdFromUrl ⟨scheme, host,
        joinSlash ("" :: pre ++ ["upload", version] ++ mids ++ [lastSeg])⟩ =
      some (joinSlash (mids ++ [""])) ∧
    (mids = [] →
      deleteImage ⟨scheme, host,
          joinSlash ("" :: pre ++ ["upload", version] ++ mids ++ [lastSeg])⟩ =
        DeleteOutcome.invalidRef) ∧
    (mids ≠ [] →
      joinSlash (mids ++ [""]) = joinSlash mids ++ "/" ∧
      deleteImage ⟨scheme, host,
          joinSlash ("" :: pre ++ ["upload", version] ++ mids ++ [lastSeg])⟩ =
        DeleteOutcome.destroyed (joinSlash mids ++ "/")) := by
  have hsh := extract_shape scheme host version pre mids lastSeg hpu hp hv hm hl
  rw [jsLastIndexOfDot_noDot hd, jsSubstring0_neg] at hsh
  refine ⟨hsh, ?_, ?_⟩
  · intro h0
    subst h0
    exact deleteImage_invalid_of_empty hsh
  · intro hne
    have hj := joinSlash_concat_empty hne
    rw [hj] at hsh
    exact ⟨hj, deleteImage_destroyed hsh (append_slash_ne_empty _)⟩

/-- C10 counterexample: on `/c/upload/v1/abc` — an `upload` segment followed
by exactly two segments, the last without a dot — the derived identifier is
the empty string, which does not end in a slash, and `deleteImage` fails with
the invalid-reference outcome rather than proceeding with a remote delete. -/
theorem extensionless_truncation_counterexample :
    extractPublicIdFromUrl ⟨"https", "h", "/c/upload/v1/abc"⟩ = some "" ∧
    deleteImage ⟨"https", "h", "/c/upload/v1/abc"⟩ = DeleteOutcome.invalidRef := by
  decide

theorem extensionless_truncation_witness :
    extractPublicIdFromUrl ⟨"https", "h",
        joinSlash ("" :: ["c", "image"] ++ ["upload", "v1"] ++ ["user_avatars"] ++
          ["abc"])⟩ = some (joinSlash (["user_avatars"] ++ [""])) ∧
    deleteImage ⟨"https", "h",
        joinSlash ("" :: ["c", "image"] ++ ["upload", "v1"] ++ ["user_avatars"] ++
          ["abc"])⟩ = DeleteOutcome.destroyed (joinSlash ["user_avatars"] ++ "/") := by
  obtain ⟨h1, _, h3⟩ := extensionless_truncation "https" "h" "v1" "abc"
    ["c", "image"] ["user_avatars"] (by decide) (by decide) (by decide) (by decide)
    (by decide) (by decide)
  exact ⟨h1, (h3 (by decide)).2⟩
